import Mathlib

/-!
Verification of `timespec_sub` (lib/timespec-sub.c, gnulib as vendored in
emacs-30.1): the saturating subtraction of two `struct timespec` values.

Shallow embedding notes.
* `time_t` is modelled as a mathematical integer constrained to the range
  of a 64-bit signed integer, `[TIME_T_MIN, TIME_T_MAX]`.  The C routine
  manipulates `time_t` only through checked operations (`ckd_add`,
  `ckd_sub`) and through steps that are in range, so `Int` plus explicit
  range checks is a faithful model.
* `TIMESPEC_HZ` is 1000000000 in the source.  The sub-second resolution is
  kept as a parameter `hz` of the embedding (the source uses the constant
  only symbolically), so properties can be instantiated both at the real
  resolution and at the smaller resolutions the specification uses in its
  examples (for instance HZ = 1000).
* `ckd_add (&bs1, bs, 1)` succeeds exactly when `bs + 1` is representable
  in `time_t`; `ckd_sub (&rs, rs, bs)` succeeds exactly when `rs - bs` is
  representable.  The embedding writes those conditions out with
  `in_time_t`.
* `TYPE_SIGNED (time_t)` is 1 (`time_t` is signed), so the source guard
  `- TYPE_SIGNED (time_t) < rs` is the test `-1 < rs`.
-/

namespace TimespecSub

/-- `TIMESPEC_HZ` from timespec.h: nanoseconds per second. -/
def TIMESPEC_HZ : Int := 1000000000

/-- `TYPE_MINIMUM (time_t)` for 64-bit signed `time_t`. -/
def TIME_T_MIN : Int := -9223372036854775808

/-- `TYPE_MAXIMUM (time_t)` for 64-bit signed `time_t`. -/
def TIME_T_MAX : Int := 9223372036854775807

/-- `INT_MIN` for 32-bit `int`. -/
def INT_MIN : Int := -2147483648

/-- `INT_MAX` for 32-bit `int`. -/
def INT_MAX : Int := 2147483647

/-- `struct timespec`: seconds and nanoseconds (sub-second units). -/
structure Timespec where
  tv_sec : Int
  tv_nsec : Int
deriving DecidableEq, Repr

/-- A value is representable in `time_t`.  `ckd_add`/`ckd_sub` on `time_t`
report overflow exactly when the mathematical result fails this test. -/
def in_time_t (x : Int) : Prop := TIME_T_MIN ≤ x ∧ x ≤ TIME_T_MAX

instance (x : Int) : Decidable (in_time_t x) :=
  inferInstanceAs (Decidable (_ ∧ _))

/-- A value is representable in `int`. -/
def in_int (x : Int) : Prop := INT_MIN ≤ x ∧ x ≤ INT_MAX

instance (x : Int) : Decidable (in_int x) :=
  inferInstanceAs (Decidable (_ ∧ _))

/-- A valid timespec for resolution `hz`: seconds representable in
`time_t`, and `0 <= tv_nsec < hz` (the invariant the source assumes:
"This assumes 0 <= tv_nsec < TIMESPEC_HZ"). -/
def Valid (hz : Int) (t : Timespec) : Prop :=
  TIME_T_MIN ≤ t.tv_sec ∧ t.tv_sec ≤ TIME_T_MAX ∧ 0 ≤ t.tv_nsec ∧ t.tv_nsec < hz

instance (hz : Int) (t : Timespec) : Decidable (Valid hz t) :=
  inferInstanceAs (Decidable (_ ∧ _ ∧ _ ∧ _))

/-- Lines 50-65 of timespec-sub.c: the final checked subtraction
`ckd_sub (&rs, rs, bs)` and the saturation on overflow, followed by
`make_timespec (rs, rns)`.  `rs` and `bs` are the (possibly
borrow-adjusted) minuend and subtrahend seconds, `rns` the result's
sub-second part. -/
def subFinish (hz rs bs rns : Int) : Timespec :=
  if in_time_t (rs - bs) then
    { tv_sec := rs - bs, tv_nsec := rns }
  else if 0 < bs then
    { tv_sec := TIME_T_MIN, tv_nsec := 0 }
  else
    { tv_sec := TIME_T_MAX, tv_nsec := hz - 1 }

/-- `timespec_sub` from timespec-sub.c, with the resolution `TIMESPEC_HZ`
generalized to a parameter `hz`.

Line-by-line correspondence:
* `ns = a.tv_nsec - b.tv_nsec`, `rns = ns`;
* `if (ns < 0)`: `rns = ns + TIMESPEC_HZ`; if `ckd_add (&bs1, bs, 1)`
  does not overflow (`in_time_t (b.tv_sec + 1)`), the subtrahend seconds
  become `bs + 1`; else if `- TYPE_SIGNED (time_t) < rs` (that is,
  `-1 < a.tv_sec`), the minuend seconds are decremented; else
  `goto low_overflow`, which yields `{ TIME_T_MIN, 0 }`;
* finally the checked subtraction and saturation, `subFinish`. -/
def timespec_sub (hz : Int) (a b : Timespec) : Timespec :=
  if a.tv_nsec - b.tv_nsec < 0 then
    if in_time_t (b.tv_sec + 1) then
      subFinish hz a.tv_sec (b.tv_sec + 1) (a.tv_nsec - b.tv_nsec + hz)
    else if -1 < a.tv_sec then
      subFinish hz (a.tv_sec - 1) b.tv_sec (a.tv_nsec - b.tv_nsec + hz)
    else
      { tv_sec := TIME_T_MIN, tv_nsec := 0 }
  else
    subFinish hz a.tv_sec b.tv_sec (a.tv_nsec - b.tv_nsec)

/-- The true mathematical difference `a - b`, measured in sub-second
units: `(a.tv_sec + a.tv_nsec/hz) - (b.tv_sec + b.tv_nsec/hz)` times
`hz`.  Its seconds part is below `TIME_T_MIN` iff it is
`< TIME_T_MIN * hz`, and above `TIME_T_MAX` iff it is
`≥ (TIME_T_MAX + 1) * hz`. -/
def diffUnits (hz : Int) (a b : Timespec) : Int :=
  (a.tv_sec - b.tv_sec) * hz + (a.tv_nsec - b.tv_nsec)

/-- Which branch of the `if (ns < 0)` borrow block (lines 38-48) the
source takes. -/
inductive BorrowBranch where
  /-- `ns ≥ 0`: the borrow block is not entered. -/
  | noBorrow
  /-- `ckd_add (&bs1, bs, 1)` succeeds: `bs = bs1`. -/
  | incSubtrahend
  /-- increment overflows but `- TYPE_SIGNED (time_t) < rs`: `rs--`. -/
  | decMinuend
  /-- increment overflows and `rs ≤ -1`: `goto low_overflow`. -/
  | lowShortCircuit
deriving DecidableEq, Repr

/-- The borrow branch taken by `timespec_sub` on inputs `a`, `b`,
mirroring lines 38-48 of the source. -/
def borrowBranch (a b : Timespec) : BorrowBranch :=
  if a.tv_nsec - b.tv_nsec < 0 then
    if in_time_t (b.tv_sec + 1) then .incSubtrahend
    else if -1 < a.tv_sec then .decMinuend
    else .lowShortCircuit
  else .noBorrow

/-- The adjusted `(rs, bs, rns)` with which `timespec_sub` reaches the
final checked subtraction (line 50), or `none` when the borrow block
short-circuits through `goto low_overflow`. -/
def borrowAdjust (hz : Int) (a b : Timespec) : Option (Int × Int × Int) :=
  if a.tv_nsec - b.tv_nsec < 0 then
    if in_time_t (b.tv_sec + 1) then
      some (a.tv_sec, b.tv_sec + 1, a.tv_nsec - b.tv_nsec + hz)
    else if -1 < a.tv_sec then
      some (a.tv_sec - 1, b.tv_sec, a.tv_nsec - b.tv_nsec + hz)
    else
      none
  else
    some (a.tv_sec, b.tv_sec, a.tv_nsec - b.tv_nsec)

/-- Lines 50-65 with every arithmetic step on a C type checked for
representability: the assignments `rns = 0` and `rns = TIMESPEC_HZ - 1`
store into an `int`. -/
def subFinishChecked (hz rs bs rns : Int) : Option Timespec :=
  if in_time_t (rs - bs) then
    some { tv_sec := rs - bs, tv_nsec := rns }
  else if 0 < bs then
    some { tv_sec := TIME_T_MIN, tv_nsec := 0 }
  else if in_int (hz - 1) then
    some { tv_sec := TIME_T_MAX, tv_nsec := hz - 1 }
  else
    none

/-- `timespec_sub` with every intermediate arithmetic step that the C
code performs on a fixed-width type checked for representability,
returning `none` where the C computation would leave the type's range:
`int ns = a.tv_nsec - b.tv_nsec` must fit `int`, `rns = ns + hz` must
fit `int`, `rs--` must stay in `time_t`.  The `ckd_add`/`ckd_sub` steps
are already guarded in the source itself and cannot fail. -/
def timespec_sub_checked (hz : Int) (a b : Timespec) : Option Timespec :=
  if in_int (a.tv_nsec - b.tv_nsec) then
    if a.tv_nsec - b.tv_nsec < 0 then
      if in_int (a.tv_nsec - b.tv_nsec + hz) then
        if in_time_t (b.tv_sec + 1) then
          subFinishChecked hz a.tv_sec (b.tv_sec + 1) (a.tv_nsec - b.tv_nsec + hz)
        else if -1 < a.tv_sec then
          if in_time_t (a.tv_sec - 1) then
            subFinishChecked hz (a.tv_sec - 1) b.tv_sec (a.tv_nsec - b.tv_nsec + hz)
          else
            none
        else
          some { tv_sec := TIME_T_MIN, tv_nsec := 0 }
      else
        none
    else
      subFinishChecked hz a.tv_sec b.tv_sec (a.tv_nsec - b.tv_nsec)
  else
    none

/-! ## Helper lemmas -/

/-- Comparing a sub-unit quantity `x * hz + ns` (with `0 ≤ ns < hz`)
against a whole-second bound `c * hz`: the seconds digit decides. -/
theorem units_le_iff (hz c x ns : Int) (hhz : 0 < hz) (h0 : 0 ≤ ns) (h1 : ns < hz) :
    c * hz ≤ x * hz + ns ↔ c ≤ x := by
  constructor
  · intro h
    by_contra hc
    push_neg at hc
    have hx1 : x + 1 ≤ c := hc
    have h2 : (x + 1) * hz ≤ c * hz := mul_le_mul_of_nonneg_right hx1 (le_of_lt hhz)
    have h3 : (x + 1) * hz = x * hz + hz := by ring
    linarith
  · intro h
    have h2 : c * hz ≤ x * hz := mul_le_mul_of_nonneg_right h (le_of_lt hhz)
    linarith

/-- Strict version of `units_le_iff`. -/
theorem units_lt_iff (hz c x ns : Int) (hhz : 0 < hz) (h0 : 0 ≤ ns) (h1 : ns < hz) :
    x * hz + ns < c * hz ↔ x < c := by
  rw [← not_le, ← not_le]
  exact not_congr (units_le_iff hz c x ns hhz h0 h1)

/-- Case analysis of `subFinish` (the final checked subtraction and the
saturation of lines 50-65), under the two side conditions relating the
sign of `bs` to the direction of a potential overflow. -/
theorem subFinish_char (hz rs bs rns : Int) (hhz : 0 < hz)
    (h0 : 0 ≤ rns) (h1 : rns < hz)
    (hlow : rs - bs < TIME_T_MIN → 0 < bs)
    (hhigh : TIME_T_MAX < rs - bs → ¬ 0 < bs) :
    ((rs - bs) * hz + rns < TIME_T_MIN * hz ∧
      subFinish hz rs bs rns = ⟨TIME_T_MIN, 0⟩) ∨
    ((TIME_T_MAX + 1) * hz ≤ (rs - bs) * hz + rns ∧
      subFinish hz rs bs rns = ⟨TIME_T_MAX, hz - 1⟩) ∨
    (TIME_T_MIN * hz ≤ (rs - bs) * hz + rns ∧
      (rs - bs) * hz + rns < (TIME_T_MAX + 1) * hz ∧
      subFinish hz rs bs rns = ⟨rs - bs, rns⟩ ∧
      TIME_T_MIN ≤ rs - bs ∧ rs - bs ≤ TIME_T_MAX) := by
  unfold subFinish in_time_t
  split_ifs with hin hbs
  · right; right
    refine ⟨?_, ?_, rfl, hin.1, hin.2⟩
    · exact (units_le_iff hz TIME_T_MIN (rs - bs) rns hhz h0 h1).mpr hin.1
    · exact (units_lt_iff hz (TIME_T_MAX + 1) (rs - bs) rns hhz h0 h1).mpr (by omega)
  · left
    have hx : rs - bs < TIME_T_MIN := by
      rcases not_and_or.mp hin with h | h
      · omega
      · exact absurd hbs (hhigh (by omega))
    exact ⟨(units_lt_iff hz TIME_T_MIN (rs - bs) rns hhz h0 h1).mpr hx, rfl⟩
  · right; left
    have hx : TIME_T_MAX < rs - bs := by
      rcases not_and_or.mp hin with h | h
      · exact absurd (hlow (by omega)) hbs
      · omega
    exact ⟨(units_le_iff hz (TIME_T_MAX + 1) (rs - bs) rns hhz h0 h1).mpr (by omega), rfl⟩

/-- Full case analysis of `timespec_sub` over valid inputs: the result is
the low clamp, the high clamp, or the exact difference, according to
where the true difference `diffUnits` falls. -/
theorem timespec_sub_char (hz : Int) (a b : Timespec) (hhz : 0 < hz)
    (ha : Valid hz a) (hb : Valid hz b) :
    (diffUnits hz a b < TIME_T_MIN * hz ∧
      timespec_sub hz a b = ⟨TIME_T_MIN, 0⟩) ∨
    ((TIME_T_MAX + 1) * hz ≤ diffUnits hz a b ∧
      timespec_sub hz a b = ⟨TIME_T_MAX, hz - 1⟩) ∨
    (TIME_T_MIN * hz ≤ diffUnits hz a b ∧
      diffUnits hz a b < (TIME_T_MAX + 1) * hz ∧
      (timespec_sub hz a b).tv_sec * hz + (timespec_sub hz a b).tv_nsec
        = diffUnits hz a b ∧
      TIME_T_MIN ≤ (timespec_sub hz a b).tv_sec ∧
      (timespec_sub hz a b).tv_sec ≤ TIME_T_MAX ∧
      0 ≤ (timespec_sub hz a b).tv_nsec ∧
      (timespec_sub hz a b).tv_nsec < hz) := by
  obtain ⟨as, an⟩ := a
  obtain ⟨bs, bn⟩ := b
  obtain ⟨has1, has2, han1, han2⟩ := ha
  obtain ⟨hbs1, hbs2, hbn1, hbn2⟩ := hb
  have hmm : TIME_T_MIN = -TIME_T_MAX - 1 := by decide
  have hmax0 : 0 < TIME_T_MAX := by decide
  unfold timespec_sub diffUnits
  dsimp only at *
  by_cases hns : an - bn < 0
  · rw [if_pos hns]
    by_cases hb1 : in_time_t (bs + 1)
    · rw [if_pos hb1]
      have key : (as - (bs + 1)) * hz + (an - bn + hz)
          = (as - bs) * hz + (an - bn) := by ring
      rcases subFinish_char hz as (bs + 1) (an - bn + hz) hhz (by omega) (by omega)
          (fun h => by omega) (fun h => by omega) with
        ⟨hd, hres⟩ | ⟨hd, hres⟩ | ⟨hd1, hd2, hres, hs1, hs2⟩
      · rw [key] at hd
        exact Or.inl ⟨hd, hres⟩
      · rw [key] at hd
        exact Or.inr (Or.inl ⟨hd, hres⟩)
      · rw [key] at hd1 hd2
        rw [hres]
        exact Or.inr (Or.inr ⟨hd1, hd2, key, hs1, hs2, by dsimp only; omega, by dsimp only; omega⟩)
    · unfold in_time_t at hb1
      have hbsmax : bs = TIME_T_MAX := by omega
      rw [if_neg (by unfold in_time_t; omega)]
      by_cases hrs : -1 < as
      · rw [if_pos hrs]
        have key : (as - 1 - bs) * hz + (an - bn + hz)
            = (as - bs) * hz + (an - bn) := by ring
        rcases subFinish_char hz (as - 1) bs (an - bn + hz) hhz (by omega) (by omega)
            (fun h => by omega) (fun h => by omega) with
          ⟨hd, hres⟩ | ⟨hd, hres⟩ | ⟨hd1, hd2, hres, hs1, hs2⟩
        · rw [key] at hd
          exact Or.inl ⟨hd, hres⟩
        · rw [key] at hd
          exact Or.inr (Or.inl ⟨hd, hres⟩)
        · rw [key] at hd1 hd2
          rw [hres]
          exact Or.inr (Or.inr ⟨hd1, hd2, key, hs1, hs2, by dsimp only; omega, by dsimp only; omega⟩)
      · rw [if_neg hrs]
        have key : (as - bs - 1) * hz + (an - bn + hz)
            = (as - bs) * hz + (an - bn) := by ring
        have hlt : (as - bs - 1) * hz + (an - bn + hz) < TIME_T_MIN * hz :=
          (units_lt_iff hz TIME_T_MIN (as - bs - 1) (an - bn + hz) hhz
            (by omega) (by omega)).mpr (by omega)
        rw [key] at hlt
        exact Or.inl ⟨hlt, rfl⟩
  · rw [if_neg hns]
    rcases subFinish_char hz as bs (an - bn) hhz (by omega) (by omega)
        (fun h => by omega) (fun h => by omega) with
      ⟨hd, hres⟩ | ⟨hd, hres⟩ | ⟨hd1, hd2, hres, hs1, hs2⟩
    · exact Or.inl ⟨hd, hres⟩
    · exact Or.inr (Or.inl ⟨hd, hres⟩)
    · rw [hres]
      exact Or.inr (Or.inr ⟨hd1, hd2, rfl, hs1, hs2, by dsimp only; omega, by dsimp only; omega⟩)

/-- `timespec_sub` is the borrow-adjustment block followed by the final
checked subtraction, with `goto low_overflow` yielding the low clamp. -/
theorem timespec_sub_eq_adjust (hz : Int) (a b : Timespec) :
    timespec_sub hz a b =
      match borrowAdjust hz a b with
      | none => ⟨TIME_T_MIN, 0⟩
      | some (rs, bs, rns) => subFinish hz rs bs rns := by
  unfold timespec_sub borrowAdjust
  split_ifs <;> rfl

/-- The checked variant of the final block agrees with the unchecked one
whenever the resolution fits an `int`. -/
theorem subFinishChecked_eq (hz rs bs rns : Int) (hhz : 0 < hz)
    (hint : hz ≤ INT_MAX) :
    subFinishChecked hz rs bs rns = some (subFinish hz rs bs rns) := by
  have hin : in_int (hz - 1) := by
    unfold in_int INT_MIN INT_MAX
    unfold INT_MAX at hint
    omega
  unfold subFinishChecked subFinish
  split_ifs <;> first | rfl | (exact absurd hin (by assumption))

/-! ## Claims -/

/-- C1: for valid inputs whose true difference is representable (seconds
part in `[TIME_T_MIN, TIME_T_MAX]`, i.e. `TIME_T_MIN * hz ≤ diffUnits <
(TIME_T_MAX + 1) * hz`), `timespec_sub` returns exactly that difference:
the result's value in sub-second units equals `diffUnits`, with the
sub-second part normalized into `[0, hz)`. -/
theorem timespec_sub_exact (hz : Int) (a b : Timespec) (hhz : 0 < hz)
    (ha : Valid hz a) (hb : Valid hz b)
    (hlo : TIME_T_MIN * hz ≤ diffUnits hz a b)
    (hhi : diffUnits hz a b < (TIME_T_MAX + 1) * hz) :
    (timespec_sub hz a b).tv_sec * hz + (timespec_sub hz a b).tv_nsec
      = diffUnits hz a b ∧
    0 ≤ (timespec_sub hz a b).tv_nsec ∧ (timespec_sub hz a b).tv_nsec < hz := by
  rcases timespec_sub_char hz a b hhz ha hb with
    ⟨hd, _⟩ | ⟨hd, _⟩ | ⟨_, _, heq, _, _, h1, h2⟩
  · omega
  · omega
  · exact ⟨heq, h1, h2⟩

/-- C1 witness: with hz = 1000, `{5, 100} - {3, 200}`; hypotheses hold,
the exact-difference conclusion holds there, and the result is `{1, 900}`. -/
theorem timespec_sub_exact_witness :
    (0 : Int) < 1000 ∧ Valid 1000 ⟨5, 100⟩ ∧ Valid 1000 ⟨3, 200⟩ ∧
    TIME_T_MIN * 1000 ≤ diffUnits 1000 ⟨5, 100⟩ ⟨3, 200⟩ ∧
    diffUnits 1000 ⟨5, 100⟩ ⟨3, 200⟩ < (TIME_T_MAX + 1) * 1000 ∧
    ((timespec_sub 1000 ⟨5, 100⟩ ⟨3, 200⟩).tv_sec * 1000
        + (timespec_sub 1000 ⟨5, 100⟩ ⟨3, 200⟩).tv_nsec
      = diffUnits 1000 ⟨5, 100⟩ ⟨3, 200⟩ ∧
      0 ≤ (timespec_sub 1000 ⟨5, 100⟩ ⟨3, 200⟩).tv_nsec ∧
      (timespec_sub 1000 ⟨5, 100⟩ ⟨3, 200⟩).tv_nsec < 1000) ∧
    timespec_sub 1000 ⟨5, 100⟩ ⟨3, 200⟩ = ⟨1, 900⟩ :=
  ⟨by decide, by decide, by decide, by decide, by decide,
    timespec_sub_exact 1000 ⟨5, 100⟩ ⟨3, 200⟩ (by decide) (by decide) (by decide)
      (by decide) (by decide),
    by decide⟩

/-- C2: for valid inputs whose true difference is below the representable
range (seconds would be `< TIME_T_MIN`), the result is the low clamp
`{TIME_T_MIN, 0}`. -/
theorem timespec_sub_low_clamp (hz : Int) (a b : Timespec) (hhz : 0 < hz)
    (ha : Valid hz a) (hb : Valid hz b)
    (hlo : diffUnits hz a b < TIME_T_MIN * hz) :
    timespec_sub hz a b = ⟨TIME_T_MIN, 0⟩ := by
  have hlt : TIME_T_MIN * hz < (TIME_T_MAX + 1) * hz :=
    mul_lt_mul_of_pos_right (by decide) hhz
  rcases timespec_sub_char hz a b hhz ha hb with
    ⟨_, hres⟩ | ⟨hd, _⟩ | ⟨hd, _⟩
  · exact hres
  · omega
  · omega

/-- C2 witness: `{TIME_T_MIN, 0} - {1, 0}` clamps low. -/
theorem timespec_sub_low_clamp_witness :
    (0 : Int) < TIMESPEC_HZ ∧
    Valid TIMESPEC_HZ ⟨TIME_T_MIN, 0⟩ ∧ Valid TIMESPEC_HZ ⟨1, 0⟩ ∧
    diffUnits TIMESPEC_HZ ⟨TIME_T_MIN, 0⟩ ⟨1, 0⟩ < TIME_T_MIN * TIMESPEC_HZ ∧
    timespec_sub TIMESPEC_HZ ⟨TIME_T_MIN, 0⟩ ⟨1, 0⟩ = ⟨TIME_T_MIN, 0⟩ :=
  ⟨by decide, by decide, by decide, by decide,
    timespec_sub_low_clamp TIMESPEC_HZ ⟨TIME_T_MIN, 0⟩ ⟨1, 0⟩ (by decide)
      (by decide) (by decide) (by decide)⟩

/-- C3: for valid inputs whose true difference is above the representable
range (seconds would be `> TIME_T_MAX`), the result is the high clamp
`{TIME_T_MAX, hz - 1}`. -/
theorem timespec_sub_high_clamp (hz : Int) (a b : Timespec) (hhz : 0 < hz)
    (ha : Valid hz a) (hb : Valid hz b)
    (hhi : (TIME_T_MAX + 1) * hz ≤ diffUnits hz a b) :
    timespec_sub hz a b = ⟨TIME_T_MAX, hz - 1⟩ := by
  have hlt : TIME_T_MIN * hz < (TIME_T_MAX + 1) * hz :=
    mul_lt_mul_of_pos_right (by decide) hhz
  rcases timespec_sub_char hz a b hhz ha hb with
    ⟨hd, _⟩ | ⟨_, hres⟩ | ⟨_, hd, _⟩
  · omega
  · exact hres
  · omega

/-- C3 witness: `{TIME_T_MAX, hz - 1} - {-1, 0}` clamps high. -/
theorem timespec_sub_high_clamp_witness :
    (0 : Int) < TIMESPEC_HZ ∧
    Valid TIMESPEC_HZ ⟨TIME_T_MAX, TIMESPEC_HZ - 1⟩ ∧ Valid TIMESPEC_HZ ⟨-1, 0⟩ ∧
    (TIME_T_MAX + 1) * TIMESPEC_HZ
      ≤ diffUnits TIMESPEC_HZ ⟨TIME_T_MAX, TIMESPEC_HZ - 1⟩ ⟨-1, 0⟩ ∧
    timespec_sub TIMESPEC_HZ ⟨TIME_T_MAX, TIMESPEC_HZ - 1⟩ ⟨-1, 0⟩
      = ⟨TIME_T_MAX, TIMESPEC_HZ - 1⟩ :=
  ⟨by decide, by decide, by decide, by decide,
    timespec_sub_high_clamp TIMESPEC_HZ ⟨TIME_T_MAX, TIMESPEC_HZ - 1⟩ ⟨-1, 0⟩
      (by decide) (by decide) (by decide) (by decide)⟩

/-- C4: for valid inputs the result is again a valid timespec: its
sub-second part lies in `[0, hz)` (and its seconds are representable), so
the operation is closed over valid timespecs. -/
theorem timespec_sub_valid (hz : Int) (a b : Timespec) (hhz : 0 < hz)
    (ha : Valid hz a) (hb : Valid hz b) :
    Valid hz (timespec_sub hz a b) := by
  rcases timespec_sub_char hz a b hhz ha hb with
    ⟨_, hres⟩ | ⟨_, hres⟩ | ⟨_, _, _, h1, h2, h3, h4⟩
  · rw [hres]
    exact ⟨by decide, by decide, by decide, hhz⟩
  · rw [hres]
    exact ⟨by dsimp only; decide, by dsimp only; decide,
      by dsimp only; omega, by dsimp only; omega⟩
  · exact ⟨h1, h2, h3, h4⟩

/-- C4 witness: a borrow-crossing subtraction at the real resolution. -/
theorem timespec_sub_valid_witness :
    (0 : Int) < TIMESPEC_HZ ∧
    Valid TIMESPEC_HZ ⟨7, 1⟩ ∧ Valid TIMESPEC_HZ ⟨2, 999999999⟩ ∧
    Valid TIMESPEC_HZ (timespec_sub TIMESPEC_HZ ⟨7, 1⟩ ⟨2, 999999999⟩) :=
  ⟨by decide, by decide, by decide,
    timespec_sub_valid TIMESPEC_HZ ⟨7, 1⟩ ⟨2, 999999999⟩ (by decide)
      (by decide) (by decide)⟩

/-- C5 counterexample: at `a = {-1, 0}`, `b = {TIME_T_MAX, 1}` the raw
sub-unit difference is negative and incrementing the subtrahend's seconds
overflows; the minuend's seconds (-1) are strictly greater than
`TIME_T_MIN`, yet the code does not decrement them: it short-circuits to
the low clamp.  The source guard is `- TYPE_SIGNED (time_t) < rs`, i.e.
`-1 < rs`, not `TIME_T_MIN < rs`. -/
theorem borrow_guard_cex :
    (⟨-1, 0⟩ : Timespec).tv_nsec - (⟨TIME_T_MAX, 1⟩ : Timespec).tv_nsec < 0 ∧
    ¬ in_time_t ((⟨TIME_T_MAX, 1⟩ : Timespec).tv_sec + 1) ∧
    TIME_T_MIN < (⟨-1, 0⟩ : Timespec).tv_sec ∧
    borrowBranch ⟨-1, 0⟩ ⟨TIME_T_MAX, 1⟩ = .lowShortCircuit ∧
    borrowBranch ⟨-1, 0⟩ ⟨TIME_T_MAX, 1⟩ ≠ .decMinuend := by
  decide

/-- C5 (amended): when the raw sub-unit difference is negative and
incrementing the subtrahend's seconds overflows `time_t`, the function
decrements the minuend's seconds by 1 exactly when they are nonnegative
(strictly greater than -1), and short-circuits directly to the low-clamp
result `{TIME_T_MIN, 0}` exactly when they are negative. -/
theorem borrow_guard (hz : Int) (a b : Timespec)
    (hns : a.tv_nsec - b.tv_nsec < 0)
    (hovf : ¬ in_time_t (b.tv_sec + 1)) :
    (borrowBranch a b = .decMinuend ↔ -1 < a.tv_sec) ∧
    (borrowBranch a b = .lowShortCircuit ↔ a.tv_sec < 0) ∧
    (a.tv_sec < 0 → timespec_sub hz a b = ⟨TIME_T_MIN, 0⟩) := by
  unfold borrowBranch timespec_sub
  rw [if_pos hns, if_neg hovf, if_pos hns, if_neg hovf]
  by_cases hrs : -1 < a.tv_sec
  · rw [if_pos hrs, if_pos hrs]
    exact ⟨⟨fun _ => hrs, fun _ => rfl⟩,
      ⟨fun h => BorrowBranch.noConfusion h, fun h => absurd hrs (by omega)⟩,
      fun h => absurd hrs (by omega)⟩
  · rw [if_neg hrs, if_neg hrs]
    exact ⟨⟨fun h => BorrowBranch.noConfusion h, fun h => absurd h hrs⟩,
      ⟨fun _ => by omega, fun _ => rfl⟩,
      fun _ => rfl⟩

/-- C5 witness: the amended guard instantiated at the counterexample's
input. -/
theorem borrow_guard_witness :
    ((⟨-1, 0⟩ : Timespec).tv_nsec - (⟨TIME_T_MAX, 1⟩ : Timespec).tv_nsec < 0) ∧
    (¬ in_time_t ((⟨TIME_T_MAX, 1⟩ : Timespec).tv_sec + 1)) ∧
    ((borrowBranch ⟨-1, 0⟩ ⟨TIME_T_MAX, 1⟩ = .decMinuend
        ↔ -1 < (⟨-1, 0⟩ : Timespec).tv_sec) ∧
      (borrowBranch ⟨-1, 0⟩ ⟨TIME_T_MAX, 1⟩ = .lowShortCircuit
        ↔ (⟨-1, 0⟩ : Timespec).tv_sec < 0) ∧
      ((⟨-1, 0⟩ : Timespec).tv_sec < 0 →
        timespec_sub TIMESPEC_HZ ⟨-1, 0⟩ ⟨TIME_T_MAX, 1⟩ = ⟨TIME_T_MIN, 0⟩)) :=
  ⟨by decide, by decide,
    borrow_guard TIMESPEC_HZ ⟨-1, 0⟩ ⟨TIME_T_MAX, 1⟩ (by decide) (by decide)⟩

/-- C6: when the final checked subtraction of the adjusted subtrahend
seconds `bs` from the adjusted minuend seconds `rs` overflows, the clamp
direction is decided by the sign of `bs`: strictly positive gives the low
clamp `{TIME_T_MIN, 0}`, otherwise (zero or negative) the high clamp
`{TIME_T_MAX, hz - 1}`. -/
theorem clamp_direction (hz : Int) (a b : Timespec) (rs bs rns : Int)
    (hadj : borrowAdjust hz a b = some (rs, bs, rns))
    (hovf : ¬ in_time_t (rs - bs)) :
    timespec_sub hz a b =
      if 0 < bs then (⟨TIME_T_MIN, 0⟩ : Timespec) else ⟨TIME_T_MAX, hz - 1⟩ := by
  rw [timespec_sub_eq_adjust, hadj]
  show subFinish hz rs bs rns = _
  unfold subFinish
  rw [if_neg hovf]

/-- C6 witness: a strictly positive adjusted subtrahend forces the low
clamp; a negative one, and also an exactly-zero one, force the high
clamp. -/
theorem clamp_direction_witness :
    (borrowAdjust TIMESPEC_HZ ⟨TIME_T_MIN, 0⟩ ⟨1, 0⟩ = some (TIME_T_MIN, 1, 0) ∧
      ¬ in_time_t (TIME_T_MIN - 1) ∧
      timespec_sub TIMESPEC_HZ ⟨TIME_T_MIN, 0⟩ ⟨1, 0⟩ = ⟨TIME_T_MIN, 0⟩) ∧
    (borrowAdjust TIMESPEC_HZ ⟨TIME_T_MAX, TIMESPEC_HZ - 1⟩ ⟨-1, 0⟩
        = some (TIME_T_MAX, -1, TIMESPEC_HZ - 1) ∧
      ¬ in_time_t (TIME_T_MAX - -1) ∧
      timespec_sub TIMESPEC_HZ ⟨TIME_T_MAX, TIMESPEC_HZ - 1⟩ ⟨-1, 0⟩
        = ⟨TIME_T_MAX, TIMESPEC_HZ - 1⟩) ∧
    (borrowAdjust TIMESPEC_HZ ⟨TIME_T_MAX + 1, 0⟩ ⟨0, 0⟩
        = some (TIME_T_MAX + 1, 0, 0) ∧
      ¬ in_time_t (TIME_T_MAX + 1 - 0) ∧
      timespec_sub TIMESPEC_HZ ⟨TIME_T_MAX + 1, 0⟩ ⟨0, 0⟩
        = ⟨TIME_T_MAX, TIMESPEC_HZ - 1⟩) :=
  ⟨⟨by decide, by decide,
      (clamp_direction TIMESPEC_HZ ⟨TIME_T_MIN, 0⟩ ⟨1, 0⟩ TIME_T_MIN 1 0
        (by decide) (by decide)).trans (by decide)⟩,
    ⟨by decide, by decide,
      (clamp_direction TIMESPEC_HZ ⟨TIME_T_MAX, TIMESPEC_HZ - 1⟩ ⟨-1, 0⟩
        TIME_T_MAX (-1) (TIMESPEC_HZ - 1) (by decide) (by decide)).trans (by decide)⟩,
    ⟨by decide, by decide,
      (clamp_direction TIMESPEC_HZ ⟨TIME_T_MAX + 1, 0⟩ ⟨0, 0⟩
        (TIME_T_MAX + 1) 0 0 (by decide) (by decide)).trans (by decide)⟩⟩

/-- C7: a whole-unit subtraction that stays representable is computed
exactly, never clamped, including when it lands exactly on `TIME_T_MIN`
or `TIME_T_MAX`. -/
theorem whole_unit_exact (hz as bs : Int) (hhz : 0 < hz)
    (h_as : in_time_t as) (h_bs : in_time_t bs) (hd : in_time_t (as - bs)) :
    timespec_sub hz ⟨as, 0⟩ ⟨bs, 0⟩ = ⟨as - bs, 0⟩ := by
  unfold timespec_sub subFinish
  dsimp only
  rw [if_neg (by omega), if_pos hd]
  norm_num

/-- C7 witness: `{TIME_T_MIN + 1, 0} - {1, 0}` lands exactly on the
boundary `{TIME_T_MIN, 0}` without clamping, and
`{TIME_T_MIN + 2, 0} - {1, 0}` gives `{TIME_T_MIN + 1, 0}`, so the
boundary value is computed, not forced. -/
theorem whole_unit_exact_witness :
    ((0 : Int) < TIMESPEC_HZ ∧ in_time_t (TIME_T_MIN + 1) ∧ in_time_t 1 ∧
      in_time_t (TIME_T_MIN + 1 - 1) ∧
      timespec_sub TIMESPEC_HZ ⟨TIME_T_MIN + 1, 0⟩ ⟨1, 0⟩ = ⟨TIME_T_MIN, 0⟩) ∧
    (in_time_t (TIME_T_MIN + 2) ∧ in_time_t (TIME_T_MIN + 2 - 1) ∧
      timespec_sub TIMESPEC_HZ ⟨TIME_T_MIN + 2, 0⟩ ⟨1, 0⟩ = ⟨TIME_T_MIN + 1, 0⟩) :=
  ⟨⟨by decide, by decide, by decide, by decide,
      (whole_unit_exact TIMESPEC_HZ (TIME_T_MIN + 1) 1 (by decide) (by decide)
        (by decide) (by decide)).trans (by decide)⟩,
    ⟨by decide, by decide,
      (whole_unit_exact TIMESPEC_HZ (TIME_T_MIN + 2) 1 (by decide) (by decide)
        (by decide) (by decide)).trans (by decide)⟩⟩

/-- C8: subtracting a valid timespec from itself yields `{0, 0}`. -/
theorem timespec_sub_self (hz : Int) (a : Timespec) (ha : Valid hz a) :
    timespec_sub hz a a = ⟨0, 0⟩ := by
  have h1 : ¬ (a.tv_nsec - a.tv_nsec < 0) := by omega
  have h2 : in_time_t (a.tv_sec - a.tv_sec) := by
    unfold in_time_t TIME_T_MIN TIME_T_MAX
    omega
  unfold timespec_sub subFinish
  rw [if_neg h1, if_pos h2]
  show (⟨a.tv_sec - a.tv_sec, a.tv_nsec - a.tv_nsec⟩ : Timespec) = ⟨0, 0⟩
  rw [sub_self, sub_self]

/-- C8 witness. -/
theorem timespec_sub_self_witness :
    Valid TIMESPEC_HZ ⟨42, 7⟩ ∧
    timespec_sub TIMESPEC_HZ ⟨42, 7⟩ ⟨42, 7⟩ = ⟨0, 0⟩ :=
  ⟨by decide, timespec_sub_self TIMESPEC_HZ ⟨42, 7⟩ (by decide)⟩

/-- C9: `timespec_sub` is total on valid inputs: the variant in which
every intermediate fixed-width arithmetic step is checked for
representability never fails and agrees with the unchecked function, for
any resolution `0 < hz ≤ INT_MAX` (in particular `TIMESPEC_HZ`) and any
valid inputs, including the extremes of the `time_t` range. -/
theorem timespec_sub_total (hz : Int) (a b : Timespec) (hhz : 0 < hz)
    (hint : hz ≤ INT_MAX) (ha : Valid hz a) (hb : Valid hz b) :
    timespec_sub_checked hz a b = some (timespec_sub hz a b) := by
  obtain ⟨has1, has2, han1, han2⟩ := ha
  obtain ⟨hbs1, hbs2, hbn1, hbn2⟩ := hb
  have hintN : hz ≤ 2147483647 := hint
  unfold TIME_T_MIN at has1
  unfold TIME_T_MAX at has2
  have hns_int : in_int (a.tv_nsec - b.tv_nsec) := by
    unfold in_int INT_MIN INT_MAX
    omega
  have hrns_int : a.tv_nsec - b.tv_nsec < 0 → in_int (a.tv_nsec - b.tv_nsec + hz) := by
    intro h
    unfold in_int INT_MIN INT_MAX
    omega
  have hdec : -1 < a.tv_sec → in_time_t (a.tv_sec - 1) := by
    intro h
    unfold in_time_t TIME_T_MIN TIME_T_MAX
    omega
  unfold timespec_sub timespec_sub_checked
  rw [if_pos hns_int]
  by_cases hns : a.tv_nsec - b.tv_nsec < 0
  · rw [if_pos hns, if_pos hns, if_pos (hrns_int hns)]
    by_cases hb1 : in_time_t (b.tv_sec + 1)
    · rw [if_pos hb1, if_pos hb1]
      exact subFinishChecked_eq hz _ _ _ hhz hint
    · rw [if_neg hb1, if_neg hb1]
      by_cases hrs : -1 < a.tv_sec
      · rw [if_pos hrs, if_pos hrs, if_pos (hdec hrs)]
        exact subFinishChecked_eq hz _ _ _ hhz hint
      · rw [if_neg hrs, if_neg hrs]
  · rw [if_neg hns, if_neg hns]
    exact subFinishChecked_eq hz _ _ _ hhz hint

/-- C9 witness: both inputs at `time_t` extremes. -/
theorem timespec_sub_total_witness :
    (0 : Int) < TIMESPEC_HZ ∧ TIMESPEC_HZ ≤ INT_MAX ∧
    Valid TIMESPEC_HZ ⟨TIME_T_MIN, 0⟩ ∧
    Valid TIMESPEC_HZ ⟨TIME_T_MAX, TIMESPEC_HZ - 1⟩ ∧
    timespec_sub_checked TIMESPEC_HZ ⟨TIME_T_MIN, 0⟩ ⟨TIME_T_MAX, TIMESPEC_HZ - 1⟩
      = some (timespec_sub TIMESPEC_HZ ⟨TIME_T_MIN, 0⟩ ⟨TIME_T_MAX, TIMESPEC_HZ - 1⟩) :=
  ⟨by decide, by decide, by decide, by decide,
    timespec_sub_total TIMESPEC_HZ ⟨TIME_T_MIN, 0⟩ ⟨TIME_T_MAX, TIMESPEC_HZ - 1⟩
      (by decide) (by decide) (by decide) (by decide)⟩

/-- C10: `{0, 0}` is a right identity: subtracting it from any valid
timespec returns that timespec unchanged, with no clamping, including at
the `time_t` extremes. -/
theorem timespec_sub_zero (hz : Int) (a : Timespec) (ha : Valid hz a) :
    timespec_sub hz a ⟨0, 0⟩ = a := by
  obtain ⟨has1, has2, han1, han2⟩ := ha
  unfold TIME_T_MIN at has1
  unfold TIME_T_MAX at has2
  have h1 : ¬ (a.tv_nsec - (⟨0, 0⟩ : Timespec).tv_nsec < 0) := by
    show ¬ (a.tv_nsec - 0 < 0)
    omega
  have h2 : in_time_t (a.tv_sec - (⟨0, 0⟩ : Timespec).tv_sec) := by
    show in_time_t (a.tv_sec - 0)
    unfold in_time_t TIME_T_MIN TIME_T_MAX
    omega
  unfold timespec_sub subFinish
  rw [if_neg h1, if_pos h2]
  show (⟨a.tv_sec - 0, a.tv_nsec - 0⟩ : Timespec) = a
  rw [sub_zero, sub_zero]

/-- C10 witness: at the top extreme of the `time_t` range. -/
theorem timespec_sub_zero_witness :
    Valid TIMESPEC_HZ ⟨TIME_T_MAX, 123⟩ ∧
    timespec_sub TIMESPEC_HZ ⟨TIME_T_MAX, 123⟩ ⟨0, 0⟩ = ⟨TIME_T_MAX, 123⟩ :=
  ⟨by decide, timespec_sub_zero TIMESPEC_HZ ⟨TIME_T_MAX, 123⟩ (by decide)⟩

end TimespecSub
